import Mathlib

/-!
Shallow embedding of `madgwick_test/madgwickIMU.hpp` (Madgwick IMU filter).

The C++ code works on 32-bit floats.  The embedding is generic over a field
`K`: float arithmetic is modelled as exact field arithmetic, float literals by
their ideal values (`0.5f` as `1/2`, `0.015f` as `3/200`, `0.1f` as `1/10`),
and the `invSqrt` routine — whose value is defined by IEEE-754 bit
reinterpretation — is passed in as an explicit function parameter `invSqrt`.
Structural facts are proved for every choice of `invSqrt`; concrete
evaluations instantiate `K := ℚ` (computable) or `K := ℝ` with the idealized
`fun x => 1 / Real.sqrt x` (the substitute the spec itself allows for the
fast inverse square root).
-/

namespace MadgwickIMU

/-- Quaternion value type, mirroring `struct quat { float x, y, z, s; }`
(fields in declaration order `x, y, z, s`). -/
@[ext] structure quat (K : Type) where
  x : K
  y : K
  z : K
  s : K
  deriving DecidableEq

/-- 3D vector type, mirroring `struct coords3d { float x, y, z; }`. -/
@[ext] structure coords3d (K : Type) where
  x : K
  y : K
  z : K
  deriving DecidableEq

/-- Filter state, mirroring the private data of `class madgwick`:
`sampleFreq`, `beta`, and the quaternion components `q0, q1, q2, q3`
(`q0` is the scalar part). -/
@[ext] structure madgwick (K : Type) where
  sampleFreq : K
  beta : K
  q0 : K
  q1 : K
  q2 : K
  q3 : K
  deriving DecidableEq

/-- The four components `qDot1 .. qDot4` of the quaternion rate of change. -/
@[ext] structure QDot (K : Type) where
  d1 : K
  d2 : K
  d3 : K
  d4 : K
  deriving DecidableEq

variable {K : Type} [Field K] [DecidableEq K]

/-- Freshly constructed filter: the in-class initializers
`sampleFreq = 0.015f`, `beta = 0.1f`, `q0 = 1.0f`, `q1 = q2 = q3 = 0.0f`
(`madgwick::madgwick()` has an empty body). -/
def madgwickInit (K : Type) [Field K] : madgwick K :=
  ⟨3 / 200, 1 / 10, 1, 0, 0, 0⟩

/-- Rate of change of quaternion from the gyroscope
(`qDot1 = 0.5f * (-q1 * gyro.x - q2 * gyro.y - q3 * gyro.z);` etc.). -/
def gyroQDot (m : madgwick K) (gyro : coords3d K) : QDot K :=
  ⟨(1 / 2) * (-m.q1 * gyro.x - m.q2 * gyro.y - m.q3 * gyro.z),
   (1 / 2) * (m.q0 * gyro.x + m.q2 * gyro.z - m.q3 * gyro.y),
   (1 / 2) * (m.q0 * gyro.y - m.q1 * gyro.z + m.q3 * gyro.x),
   (1 / 2) * (m.q0 * gyro.z + m.q1 * gyro.y - m.q2 * gyro.x)⟩

/-- Accelerometer measurement normalisation:
`recipNorm = invSqrt(ax*ax + ay*ay + az*az); ax *= recipNorm; ...`. -/
def normAccel (invSqrt : K → K) (accel : coords3d K) : coords3d K :=
  let recipNorm := invSqrt (accel.x * accel.x + accel.y * accel.y + accel.z * accel.z)
  ⟨accel.x * recipNorm, accel.y * recipNorm, accel.z * recipNorm⟩

/-- Gradient descent corrective step, term `s0`, with the auxiliary
variables `_2q.. / _4q.. / q.q..` of the source inlined:
`s0 = _4q0 * q2q2 + _2q2 * ax + _4q0 * q1q1 - _2q1 * ay;`. -/
def s0 (q0 q1 q2 q3 ax ay az : K) : K :=
  (4 * q0) * (q2 * q2) + (2 * q2) * ax + (4 * q0) * (q1 * q1) - (2 * q1) * ay

/-- Gradient term `s1` of the source:
`s1 = _4q1 * q3q3 - _2q3 * ax + 4.0f * q0q0 * q1 - _2q0 * ay - _4q1 + _8q1 * q1q1 + _8q1 * q2q2 + _4q1 * az;`. -/
def s1 (q0 q1 q2 q3 ax ay az : K) : K :=
  (4 * q1) * (q3 * q3) - (2 * q3) * ax + 4 * (q0 * q0) * q1 - (2 * q0) * ay
    - 4 * q1 + (8 * q1) * (q1 * q1) + (8 * q1) * (q2 * q2) + (4 * q1) * az

/-- Gradient term `s2` of the source:
`s2 = 4.0f * q0q0 * q2 + _2q0 * ax + _4q2 * q3q3 - _2q3 * ay - _4q2 + _8q2 * q1q1 + _8q2 * q2q2 + _4q2 * az;`. -/
def s2 (q0 q1 q2 q3 ax ay az : K) : K :=
  4 * (q0 * q0) * q2 + (2 * q0) * ax + (4 * q2) * (q3 * q3) - (2 * q3) * ay
    - 4 * q2 + (8 * q2) * (q1 * q1) + (8 * q2) * (q2 * q2) + (4 * q2) * az

/-- Gradient term `s3` of the source:
`s3 = 4.0f * q1q1 * q3 - _2q1 * ax + 4.0f * q2q2 * q3 - _2q2 * ay;`. -/
def s3 (q0 q1 q2 q3 ax ay az : K) : K :=
  4 * (q1 * q1) * q3 - (2 * q1) * ax + 4 * (q2 * q2) * q3 - (2 * q2) * ay

/-- Sum of squares `s0*s0 + s1*s1 + s2*s2 + s3*s3` of the gradient terms,
the argument handed to `invSqrt` when normalising the step magnitude. -/
def sNormSqArg (q0 q1 q2 q3 ax ay az : K) : K :=
  s0 q0 q1 q2 q3 ax ay az * s0 q0 q1 q2 q3 ax ay az
    + s1 q0 q1 q2 q3 ax ay az * s1 q0 q1 q2 q3 ax ay az
    + s2 q0 q1 q2 q3 ax ay az * s2 q0 q1 q2 q3 ax ay az
    + s3 q0 q1 q2 q3 ax ay az * s3 q0 q1 q2 q3 ax ay az

/-- The argument received by the `invSqrt` call that normalises the gradient
step magnitude, as a function of the state and the raw accelerometer input
(the accelerometer is normalised first, exactly as in the source). -/
def sArg (invSqrt : K → K) (m : madgwick K) (accel : coords3d K) : K :=
  let na := normAccel invSqrt accel
  sNormSqArg m.q0 m.q1 m.q2 m.q3 na.x na.y na.z

/-- Body of the accelerometer-feedback branch: normalise the accelerometer
reading, compute and normalise the gradient terms, and apply the feedback
step `qDot1 -= beta * s0; ...` to the gyro-derived rates. -/
def feedbackQDot (invSqrt : K → K) (m : madgwick K) (gyro accel : coords3d K) : QDot K :=
  let na := normAccel invSqrt accel
  let t0 := s0 m.q0 m.q1 m.q2 m.q3 na.x na.y na.z
  let t1 := s1 m.q0 m.q1 m.q2 m.q3 na.x na.y na.z
  let t2 := s2 m.q0 m.q1 m.q2 m.q3 na.x na.y na.z
  let t3 := s3 m.q0 m.q1 m.q2 m.q3 na.x na.y na.z
  let recipNorm := invSqrt (t0 * t0 + t1 * t1 + t2 * t2 + t3 * t3)
  let g := gyroQDot m gyro
  ⟨g.d1 - m.beta * (t0 * recipNorm),
   g.d2 - m.beta * (t1 * recipNorm),
   g.d3 - m.beta * (t2 * recipNorm),
   g.d4 - m.beta * (t3 * recipNorm)⟩

/-- The quaternion rate after the conditional feedback step: the source
computes the feedback `if(!((accel.x == 0.0f) && (accel.y == 0.0f) && (accel.z == 0.0f)))`,
i.e. the accelerometer branch is skipped, leaving `qDot` unmodified, exactly
when all three accelerometer components equal zero. -/
def qDotAfterFeedback (invSqrt : K → K) (m : madgwick K) (gyro accel : coords3d K) : QDot K :=
  if accel.x = 0 ∧ accel.y = 0 ∧ accel.z = 0 then gyroQDot m gyro
  else feedbackQDot invSqrt m gyro accel

/-- Integration step of the source:
`q0 += qDot1 * (1.0f / sampleFreq);` (and likewise `q1, q2, q3`),
all four components from the same pre-integration state. -/
def integrated (invSqrt : K → K) (m : madgwick K) (gyro accel : coords3d K) : madgwick K :=
  let qd := qDotAfterFeedback invSqrt m gyro accel
  { m with
    q0 := m.q0 + qd.d1 * (1 / m.sampleFreq),
    q1 := m.q1 + qd.d2 * (1 / m.sampleFreq),
    q2 := m.q2 + qd.d3 * (1 / m.sampleFreq),
    q3 := m.q3 + qd.d4 * (1 / m.sampleFreq) }

/-- Sum of squares of the stored quaternion components,
`q0 * q0 + q1 * q1 + q2 * q2 + q3 * q3`. -/
def sumSq (m : madgwick K) : K :=
  m.q0 * m.q0 + m.q1 * m.q1 + m.q2 * m.q2 + m.q3 * m.q3

/-- The full `quat madgwick::MadgwickAHRSupdateIMU(coords3d gyro, coords3d accel)`:
gyro rate, conditional accelerometer feedback, integration, re-normalisation
of the stored quaternion, and the returned `quat` packed exactly as in the
source (`q.x = q0; q.y = q1; q.z = q2; q.s = q3;`).  Returns the new filter
state paired with the returned quaternion. -/
def MadgwickAHRSupdateIMU (invSqrt : K → K) (m : madgwick K) (gyro accel : coords3d K) :
    madgwick K × quat K :=
  let mi := integrated invSqrt m gyro accel
  let recipNorm := invSqrt (sumSq mi)
  let n0 := mi.q0 * recipNorm
  let n1 := mi.q1 * recipNorm
  let n2 := mi.q2 * recipNorm
  let n3 := mi.q3 * recipNorm
  ({ mi with q0 := n0, q1 := n1, q2 := n2, q3 := n3 }, ⟨n0, n1, n2, n3⟩)

/-- Pre-normalisation sum of squares: the argument received by the final
`invSqrt` call of an update. -/
def preNormSumSq (invSqrt : K → K) (m : madgwick K) (gyro accel : coords3d K) : K :=
  sumSq (integrated invSqrt m gyro accel)

/-! Spec-side definitions, written from the specification's own wording, to
be compared against the source-derived definitions above (refinement-style
claims C5 and C6). -/

/-- Spec-side gyro rate, transcribed from the spec's component formulas
`qDot1 = 0.5*(-q1*gx - q2*gy - q3*gz)` .. `qDot4 = 0.5*( q0*gz + q1*gy - q2*gx)`. -/
def specQDot (q0 q1 q2 q3 gx gy gz : K) : QDot K :=
  ⟨(1 / 2) * (-q1 * gx - q2 * gy - q3 * gz),
   (1 / 2) * (q0 * gx + q2 * gz - q3 * gy),
   (1 / 2) * (q0 * gy - q1 * gz + q3 * gx),
   (1 / 2) * (q0 * gz + q1 * gy - q2 * gx)⟩

/-- Spec-side gradient term `s0 = 4*q0*q2² + 2*q2*ax + 4*q0*q1² - 2*q1*ay`. -/
def specS0 (q0 q1 q2 q3 ax ay az : K) : K :=
  4 * q0 * q2 ^ 2 + 2 * q2 * ax + 4 * q0 * q1 ^ 2 - 2 * q1 * ay

/-- Spec-side gradient term
`s1 = 4*q1*q3² - 2*q3*ax + 4*q0²*q1 - 2*q0*ay - 4*q1 + 8*q1*q1² + 8*q1*q2² + 4*q1*az`. -/
def specS1 (q0 q1 q2 q3 ax ay az : K) : K :=
  4 * q1 * q3 ^ 2 - 2 * q3 * ax + 4 * q0 ^ 2 * q1 - 2 * q0 * ay - 4 * q1
    + 8 * q1 * q1 ^ 2 + 8 * q1 * q2 ^ 2 + 4 * q1 * az

/-- Spec-side gradient term
`s2 = 4*q0²*q2 + 2*q0*ax + 4*q2*q3² - 2*q3*ay - 4*q2 + 8*q2*q1² + 8*q2*q2² + 4*q2*az`. -/
def specS2 (q0 q1 q2 q3 ax ay az : K) : K :=
  4 * q0 ^ 2 * q2 + 2 * q0 * ax + 4 * q2 * q3 ^ 2 - 2 * q3 * ay - 4 * q2
    + 8 * q2 * q1 ^ 2 + 8 * q2 * q2 ^ 2 + 4 * q2 * az

/-- Spec-side gradient term `s3 = 4*q1²*q3 - 2*q1*ax + 4*q2²*q3 - 2*q2*ay`. -/
def specS3 (q0 q1 q2 q3 ax ay az : K) : K :=
  4 * q1 ^ 2 * q3 - 2 * q1 * ax + 4 * q2 ^ 2 * q3 - 2 * q2 * ay

/-- Modelled from the spec: pure gyro integration with no gradient-descent
correction term — spec Step 1 (gyro rate formulas), Step 3 (integrate each
component by `qDot_i * (1 / sample_period)`), Step 4 (re-normalise with the
inverse-sqrt utility) — the reference behaviour the spec says an update with
zero accelerometer must match (claim C5). -/
def pureGyroOnly (invSqrt : K → K) (m : madgwick K) (gyro : coords3d K) : madgwick K :=
  let qd := specQDot m.q0 m.q1 m.q2 m.q3 gyro.x gyro.y gyro.z
  let p0 := m.q0 + qd.d1 * (1 / m.sampleFreq)
  let p1 := m.q1 + qd.d2 * (1 / m.sampleFreq)
  let p2 := m.q2 + qd.d3 * (1 / m.sampleFreq)
  let p3 := m.q3 + qd.d4 * (1 / m.sampleFreq)
  let recipNorm := invSqrt (p0 * p0 + p1 * p1 + p2 * p2 + p3 * p3)
  { m with q0 := p0 * recipNorm, q1 := p1 * recipNorm,
           q2 := p2 * recipNorm, q3 := p3 * recipNorm }

/-- Predicted gravity direction: the objective in spec §4.2 compares the
rotated reference gravity `R(q)^T [0,0,1]^T` with the measured acceleration;
this is that rotated reference vector, written out component-wise. -/
def gravityEst (q0 q1 q2 q3 : K) : coords3d K :=
  ⟨2 * (q1 * q3 - q0 * q2), 2 * (q0 * q1 + q2 * q3), q0 * q0 - q1 * q1 - q2 * q2 + q3 * q3⟩

/-! Theorems.  The first three are small helper lemmas about zero-input
updates, shared by several of the proofs below. -/

/-- With zero accel the feedback is skipped, and with zero gyro the gyro
rate itself is zero. -/
theorem qDotZeroInput {K : Type} [Field K] [DecidableEq K]
    (invSqrt : K → K) (m : madgwick K) :
    qDotAfterFeedback invSqrt m ⟨0, 0, 0⟩ ⟨0, 0, 0⟩ = ⟨0, 0, 0, 0⟩ := by
  unfold qDotAfterFeedback
  rw [if_pos ⟨rfl, rfl, rfl⟩]
  simp [gyroQDot]

/-- With both inputs zero, integration adds zero to every component. -/
theorem integratedZeroInput {K : Type} [Field K] [DecidableEq K]
    (invSqrt : K → K) (m : madgwick K) :
    integrated invSqrt m ⟨0, 0, 0⟩ ⟨0, 0, 0⟩ = m := by
  unfold integrated
  rw [qDotZeroInput]
  simp

/-- A zero-input update reduces to rescaling every quaternion component by
`invSqrt` of the current sum of squares. -/
theorem updateZeroInputEq {K : Type} [Field K] [DecidableEq K]
    (invSqrt : K → K) (m : madgwick K) :
    MadgwickAHRSupdateIMU invSqrt m ⟨0, 0, 0⟩ ⟨0, 0, 0⟩ =
      (⟨m.sampleFreq, m.beta, m.q0 * invSqrt (sumSq m), m.q1 * invSqrt (sumSq m),
        m.q2 * invSqrt (sumSq m), m.q3 * invSqrt (sumSq m)⟩,
       ⟨m.q0 * invSqrt (sumSq m), m.q1 * invSqrt (sumSq m),
        m.q2 * invSqrt (sumSq m), m.q3 * invSqrt (sumSq m)⟩) := by
  unfold MadgwickAHRSupdateIMU
  rw [integratedZeroInput]

/-- C1 counterexample: at the fresh filter with zero inputs (idealized
inverse square root `1/√x` over ℝ), the returned quaternion's `x` field
holds the scalar part `q0` of the new state (value 1), not the vector
component `q1` (value 0) as the claim asserts: the claimed field-order
transposition does not happen. -/
theorem c1_counterexample :
    ¬ ((MadgwickAHRSupdateIMU (fun x => 1 / Real.sqrt x) (madgwickInit ℝ)
          ⟨0, 0, 0⟩ ⟨0, 0, 0⟩).2.x =
       (MadgwickAHRSupdateIMU (fun x => 1 / Real.sqrt x) (madgwickInit ℝ)
          ⟨0, 0, 0⟩ ⟨0, 0, 0⟩).1.q1) := by
  rw [updateZeroInputEq]
  simp [madgwickInit, sumSq, Real.sqrt_one]

/-- C1 (amended): the returned quaternion is a copy of the new internal
state in storage order — `x` holds `q0` (the scalar part), `y` holds `q1`,
`z` holds `q2` and `s` holds `q3`; there is no field-order transposition. -/
theorem c1_return_layout {K : Type} [Field K] [DecidableEq K]
    (invSqrt : K → K) (m : madgwick K) (gyro accel : coords3d K) :
    (MadgwickAHRSupdateIMU invSqrt m gyro accel).2 =
      ⟨(MadgwickAHRSupdateIMU invSqrt m gyro accel).1.q0,
       (MadgwickAHRSupdateIMU invSqrt m gyro accel).1.q1,
       (MadgwickAHRSupdateIMU invSqrt m gyro accel).1.q2,
       (MadgwickAHRSupdateIMU invSqrt m gyro accel).1.q3⟩ := rfl

/-- C5: with an exactly-zero accelerometer reading the feedback block is
skipped, leaving the quaternion rate exactly the gyro-derived one, and the
resulting state is identical to pure gyro integration followed by
normalisation (the spec-side reference `pureGyroOnly`), for every state,
gyro input and inverse-sqrt routine. -/
theorem c5_accel_zero_shortcircuit {K : Type} [Field K] [DecidableEq K]
    (invSqrt : K → K) (m : madgwick K) (gyro : coords3d K) :
    qDotAfterFeedback invSqrt m gyro ⟨0, 0, 0⟩ = gyroQDot m gyro ∧
    (MadgwickAHRSupdateIMU invSqrt m gyro ⟨0, 0, 0⟩).1 = pureGyroOnly invSqrt m gyro := by
  have hq : qDotAfterFeedback invSqrt m gyro ⟨0, 0, 0⟩ = gyroQDot m gyro := by
    unfold qDotAfterFeedback
    exact if_pos ⟨rfl, rfl, rfl⟩
  refine ⟨hq, ?_⟩
  unfold MadgwickAHRSupdateIMU integrated
  rw [hq]
  rfl

/-- C6: the gyro-rate components and the gradient terms computed by the code
agree exactly with the spec's component-wise formulas, and the feedback step
subtracts `beta` times the normalised gradient (each `s_i` scaled by the
inverse-sqrt of their sum of squares) from the gyro-derived rate. -/
theorem c6_step_formulas {K : Type} [Field K] [DecidableEq K]
    (invSqrt : K → K) (m : madgwick K) (gyro accel : coords3d K)
    (q0v q1v q2v q3v ax ay az : K) :
    gyroQDot m gyro = specQDot m.q0 m.q1 m.q2 m.q3 gyro.x gyro.y gyro.z ∧
    s0 q0v q1v q2v q3v ax ay az = specS0 q0v q1v q2v q3v ax ay az ∧
    s1 q0v q1v q2v q3v ax ay az = specS1 q0v q1v q2v q3v ax ay az ∧
    s2 q0v q1v q2v q3v ax ay az = specS2 q0v q1v q2v q3v ax ay az ∧
    s3 q0v q1v q2v q3v ax ay az = specS3 q0v q1v q2v q3v ax ay az ∧
    feedbackQDot invSqrt m gyro accel =
      ⟨(gyroQDot m gyro).d1 - m.beta *
          (s0 m.q0 m.q1 m.q2 m.q3 (normAccel invSqrt accel).x (normAccel invSqrt accel).y
              (normAccel invSqrt accel).z * invSqrt (sArg invSqrt m accel)),
       (gyroQDot m gyro).d2 - m.beta *
          (s1 m.q0 m.q1 m.q2 m.q3 (normAccel invSqrt accel).x (normAccel invSqrt accel).y
              (normAccel invSqrt accel).z * invSqrt (sArg invSqrt m accel)),
       (gyroQDot m gyro).d3 - m.beta *
          (s2 m.q0 m.q1 m.q2 m.q3 (normAccel invSqrt accel).x (normAccel invSqrt accel).y
              (normAccel invSqrt accel).z * invSqrt (sArg invSqrt m accel)),
       (gyroQDot m gyro).d4 - m.beta *
          (s3 m.q0 m.q1 m.q2 m.q3 (normAccel invSqrt accel).x (normAccel invSqrt accel).y
              (normAccel invSqrt accel).z * invSqrt (sArg invSqrt m accel))⟩ :=
  ⟨rfl,
   by unfold s0 specS0; ring,
   by unfold s1 specS1; ring,
   by unfold s2 specS2; ring,
   by unfold s3 specS3; ring,
   rfl⟩

/-- C7: the integration step adds `qDot_i * (1 / sampleFreq)` to each of the
four quaternion components, all four from the same pre-integration state and
the same post-feedback rates, and a fresh filter has
`sampleFreq = 0.015` (= 3/200) and `beta = 0.1` (= 1/10). -/
theorem c7_integration {K : Type} [Field K] [DecidableEq K]
    (invSqrt : K → K) (m : madgwick K) (gyro accel : coords3d K) :
    (integrated invSqrt m gyro accel).q0 =
        m.q0 + (qDotAfterFeedback invSqrt m gyro accel).d1 * (1 / m.sampleFreq) ∧
    (integrated invSqrt m gyro accel).q1 =
        m.q1 + (qDotAfterFeedback invSqrt m gyro accel).d2 * (1 / m.sampleFreq) ∧
    (integrated invSqrt m gyro accel).q2 =
        m.q2 + (qDotAfterFeedback invSqrt m gyro accel).d3 * (1 / m.sampleFreq) ∧
    (integrated invSqrt m gyro accel).q3 =
        m.q3 + (qDotAfterFeedback invSqrt m gyro accel).d4 * (1 / m.sampleFreq) ∧
    (madgwickInit K).sampleFreq = 3 / 200 ∧ (madgwickInit K).beta = 1 / 10 :=
  ⟨rfl, rfl, rfl, rfl, rfl, rfl⟩

/-- C9: an update leaves the configuration fields `sampleFreq` and `beta`
unchanged; only the four quaternion components are replaced. -/
theorem c9_frame {K : Type} [Field K] [DecidableEq K]
    (invSqrt : K → K) (m : madgwick K) (gyro accel : coords3d K) :
    (MadgwickAHRSupdateIMU invSqrt m gyro accel).1.sampleFreq = m.sampleFreq ∧
    (MadgwickAHRSupdateIMU invSqrt m gyro accel).1.beta = m.beta :=
  ⟨rfl, rfl⟩

/-- C2 counterexample: at the identity state (unit norm) with the nonzero
accelerometer reading `(0,0,1)`, the feedback step's gradient terms have sum
of squares exactly zero, so the inverse-sqrt call normalising the gradient
receives exactly `0` (shown with the idealized `1/√x` normalising the
accelerometer first, exactly as the code does). -/
theorem c2_counterexample :
    sumSq (madgwickInit ℝ) = 1 ∧
    (⟨0, 0, 1⟩ : coords3d ℝ) ≠ ⟨0, 0, 0⟩ ∧
    sArg (fun x => 1 / Real.sqrt x) (madgwickInit ℝ) ⟨0, 0, 1⟩ = 0 := by
  have hna : normAccel (fun x => 1 / Real.sqrt x) (⟨0, 0, 1⟩ : coords3d ℝ) = ⟨0, 0, 1⟩ := by
    simp [normAccel, Real.sqrt_one]
  refine ⟨by norm_num [sumSq, madgwickInit], by simp, ?_⟩
  unfold sArg
  rw [hna]
  norm_num [sNormSqArg, s0, s1, s2, s3, madgwickInit]

/-- C2 (amended): the gradient's sum of squares is not always nonzero for a
unit-norm state and nonzero accel — whenever the (normalised) accelerometer
reading equals the predicted gravity direction `gravityEst q`, itself a
nonzero vector, all four gradient terms vanish and the inverse-sqrt argument
is exactly zero, so a zero-guard would in fact be needed there. -/
theorem c2_gradient_vanishes {K : Type} [Field K] (q0v q1v q2v q3v : K)
    (h : q0v * q0v + q1v * q1v + q2v * q2v + q3v * q3v = 1) :
    ¬ ((gravityEst q0v q1v q2v q3v).x = 0 ∧ (gravityEst q0v q1v q2v q3v).y = 0 ∧
       (gravityEst q0v q1v q2v q3v).z = 0) ∧
    s0 q0v q1v q2v q3v (gravityEst q0v q1v q2v q3v).x (gravityEst q0v q1v q2v q3v).y
      (gravityEst q0v q1v q2v q3v).z = 0 ∧
    s1 q0v q1v q2v q3v (gravityEst q0v q1v q2v q3v).x (gravityEst q0v q1v q2v q3v).y
      (gravityEst q0v q1v q2v q3v).z = 0 ∧
    s2 q0v q1v q2v q3v (gravityEst q0v q1v q2v q3v).x (gravityEst q0v q1v q2v q3v).y
      (gravityEst q0v q1v q2v q3v).z = 0 ∧
    s3 q0v q1v q2v q3v (gravityEst q0v q1v q2v q3v).x (gravityEst q0v q1v q2v q3v).y
      (gravityEst q0v q1v q2v q3v).z = 0 ∧
    sNormSqArg q0v q1v q2v q3v (gravityEst q0v q1v q2v q3v).x (gravityEst q0v q1v q2v q3v).y
      (gravityEst q0v q1v q2v q3v).z = 0 := by
  have h0 : s0 q0v q1v q2v q3v (gravityEst q0v q1v q2v q3v).x (gravityEst q0v q1v q2v q3v).y
      (gravityEst q0v q1v q2v q3v).z = 0 := by
    simp only [gravityEst, s0]; ring
  have h1 : s1 q0v q1v q2v q3v (gravityEst q0v q1v q2v q3v).x (gravityEst q0v q1v q2v q3v).y
      (gravityEst q0v q1v q2v q3v).z = 0 := by
    simp only [gravityEst, s1]
    linear_combination (4 * q1v) * h
  have h2 : s2 q0v q1v q2v q3v (gravityEst q0v q1v q2v q3v).x (gravityEst q0v q1v q2v q3v).y
      (gravityEst q0v q1v q2v q3v).z = 0 := by
    simp only [gravityEst, s2]
    linear_combination (4 * q2v) * h
  have h3 : s3 q0v q1v q2v q3v (gravityEst q0v q1v q2v q3v).x (gravityEst q0v q1v q2v q3v).y
      (gravityEst q0v q1v q2v q3v).z = 0 := by
    simp only [gravityEst, s3]; ring
  refine ⟨?_, h0, h1, h2, h3, ?_⟩
  · rintro ⟨hx, hy, hz⟩
    simp only [gravityEst] at hx hy hz
    exact one_ne_zero (α := K) (by
      linear_combination 2 * (q1v * q3v - q0v * q2v) * hx
        + 2 * (q0v * q1v + q2v * q3v) * hy
        + (q0v * q0v - q1v * q1v - q2v * q2v + q3v * q3v) * hz
        - (q0v * q0v + q1v * q1v + q2v * q2v + q3v * q3v + 1) * h)
  · unfold sNormSqArg
    rw [h0, h1, h2, h3]
    norm_num

/-- C2 witness: the amended theorem applied at the identity quaternion,
where the predicted gravity is `(0,0,1)` and every gradient term vanishes. -/
theorem c2_gradient_vanishes_witness :
    ((1 : ℚ) * 1 + 0 * 0 + 0 * 0 + 0 * 0 = 1) ∧
    (¬ ((gravityEst (1 : ℚ) 0 0 0).x = 0 ∧ (gravityEst (1 : ℚ) 0 0 0).y = 0 ∧
        (gravityEst (1 : ℚ) 0 0 0).z = 0) ∧
     s0 (1 : ℚ) 0 0 0 (gravityEst (1 : ℚ) 0 0 0).x (gravityEst (1 : ℚ) 0 0 0).y
       (gravityEst (1 : ℚ) 0 0 0).z = 0 ∧
     s1 (1 : ℚ) 0 0 0 (gravityEst (1 : ℚ) 0 0 0).x (gravityEst (1 : ℚ) 0 0 0).y
       (gravityEst (1 : ℚ) 0 0 0).z = 0 ∧
     s2 (1 : ℚ) 0 0 0 (gravityEst (1 : ℚ) 0 0 0).x (gravityEst (1 : ℚ) 0 0 0).y
       (gravityEst (1 : ℚ) 0 0 0).z = 0 ∧
     s3 (1 : ℚ) 0 0 0 (gravityEst (1 : ℚ) 0 0 0).x (gravityEst (1 : ℚ) 0 0 0).y
       (gravityEst (1 : ℚ) 0 0 0).z = 0 ∧
     sNormSqArg (1 : ℚ) 0 0 0 (gravityEst (1 : ℚ) 0 0 0).x (gravityEst (1 : ℚ) 0 0 0).y
       (gravityEst (1 : ℚ) 0 0 0).z = 0) :=
  ⟨by norm_num, c2_gradient_vanishes 1 0 0 0 (by norm_num)⟩

/-- C3: after any update, the sum of squares of the stored quaternion (and
of the returned quaternion's fields) is within ε of 1, provided the
inverse-sqrt routine is within that accuracy on the pre-normalisation sum of
squares `S` (in the sense `|S * invSqrt S * invSqrt S - 1| ≤ ε`); the
claim's ε ≈ 1e-3 corresponds to the ≈0.17% relative error of the fast
inverse square root. -/
theorem c3_unit_norm (invSqrt : ℚ → ℚ) (m : madgwick ℚ) (gyro accel : coords3d ℚ) (ε : ℚ)
    (h : |preNormSumSq invSqrt m gyro accel *
            invSqrt (preNormSumSq invSqrt m gyro accel) *
            invSqrt (preNormSumSq invSqrt m gyro accel) - 1| ≤ ε) :
    |sumSq (MadgwickAHRSupdateIMU invSqrt m gyro accel).1 - 1| ≤ ε ∧
    |(MadgwickAHRSupdateIMU invSqrt m gyro accel).2.x *
        (MadgwickAHRSupdateIMU invSqrt m gyro accel).2.x +
      (MadgwickAHRSupdateIMU invSqrt m gyro accel).2.y *
        (MadgwickAHRSupdateIMU invSqrt m gyro accel).2.y +
      (MadgwickAHRSupdateIMU invSqrt m gyro accel).2.z *
        (MadgwickAHRSupdateIMU invSqrt m gyro accel).2.z +
      (MadgwickAHRSupdateIMU invSqrt m gyro accel).2.s *
        (MadgwickAHRSupdateIMU invSqrt m gyro accel).2.s - 1| ≤ ε := by
  have key : sumSq (MadgwickAHRSupdateIMU invSqrt m gyro accel).1 =
      preNormSumSq invSqrt m gyro accel *
        invSqrt (preNormSumSq invSqrt m gyro accel) *
        invSqrt (preNormSumSq invSqrt m gyro accel) := by
    simp only [MadgwickAHRSupdateIMU, sumSq, preNormSumSq]
    ring
  have key2 : (MadgwickAHRSupdateIMU invSqrt m gyro accel).2.x *
        (MadgwickAHRSupdateIMU invSqrt m gyro accel).2.x +
      (MadgwickAHRSupdateIMU invSqrt m gyro accel).2.y *
        (MadgwickAHRSupdateIMU invSqrt m gyro accel).2.y +
      (MadgwickAHRSupdateIMU invSqrt m gyro accel).2.z *
        (MadgwickAHRSupdateIMU invSqrt m gyro accel).2.z +
      (MadgwickAHRSupdateIMU invSqrt m gyro accel).2.s *
        (MadgwickAHRSupdateIMU invSqrt m gyro accel).2.s =
      sumSq (MadgwickAHRSupdateIMU invSqrt m gyro accel).1 := rfl
  rw [key2, key]
  exact ⟨h, h⟩

/-- C3 witness: the fresh filter updated with zero inputs, the stand-in
inverse-sqrt `fun _ => 1` (exact at argument 1), and ε = 1/1000. -/
theorem c3_unit_norm_witness :
    (|preNormSumSq (fun _ => (1 : ℚ)) (madgwickInit ℚ) ⟨0, 0, 0⟩ ⟨0, 0, 0⟩ *
        (fun _ => (1 : ℚ)) (preNormSumSq (fun _ => (1 : ℚ)) (madgwickInit ℚ) ⟨0, 0, 0⟩ ⟨0, 0, 0⟩) *
        (fun _ => (1 : ℚ)) (preNormSumSq (fun _ => (1 : ℚ)) (madgwickInit ℚ) ⟨0, 0, 0⟩ ⟨0, 0, 0⟩)
      - 1| ≤ 1 / 1000) ∧
    (|sumSq (MadgwickAHRSupdateIMU (fun _ => (1 : ℚ)) (madgwickInit ℚ) ⟨0, 0, 0⟩ ⟨0, 0, 0⟩).1 - 1|
      ≤ 1 / 1000) := by
  have hw : |preNormSumSq (fun _ => (1 : ℚ)) (madgwickInit ℚ) ⟨0, 0, 0⟩ ⟨0, 0, 0⟩ *
        (fun _ => (1 : ℚ)) (preNormSumSq (fun _ => (1 : ℚ)) (madgwickInit ℚ) ⟨0, 0, 0⟩ ⟨0, 0, 0⟩) *
        (fun _ => (1 : ℚ)) (preNormSumSq (fun _ => (1 : ℚ)) (madgwickInit ℚ) ⟨0, 0, 0⟩ ⟨0, 0, 0⟩)
      - 1| ≤ 1 / 1000 := by
    have hpre : preNormSumSq (fun _ => (1 : ℚ)) (madgwickInit ℚ) ⟨0, 0, 0⟩ ⟨0, 0, 0⟩ = 1 := by
      unfold preNormSumSq
      rw [integratedZeroInput]
      norm_num [sumSq, madgwickInit]
    rw [hpre]
    norm_num
  exact ⟨hw, (c3_unit_norm (fun _ => 1) (madgwickInit ℚ) ⟨0, 0, 0⟩ ⟨0, 0, 0⟩ (1 / 1000) hw).1⟩

/-- C4 counterexample: zero gyro and zero accel do not leave every state
unchanged — starting from the state `(q0,q1,q2,q3) = (2,0,0,0)` (and the
idealized `1/√x`), the final re-normalisation rescales the quaternion, so
the stored orientation changes. -/
theorem c4_counterexample :
    ¬ ((MadgwickAHRSupdateIMU (fun x => 1 / Real.sqrt x)
          ⟨3 / 200, 1 / 10, 2, 0, 0, 0⟩ ⟨0, 0, 0⟩ ⟨0, 0, 0⟩).1 =
        (⟨3 / 200, 1 / 10, 2, 0, 0, 0⟩ : madgwick ℝ)) := by
  intro hEq
  rw [updateZeroInputEq] at hEq
  have h4 : Real.sqrt 4 = 2 := by
    rw [show (4 : ℝ) = 2 ^ 2 by norm_num, Real.sqrt_sq (by norm_num : (0 : ℝ) ≤ 2)]
  have h2 := congrArg madgwick.q0 hEq
  norm_num [sumSq, h4] at h2

/-- C4 (amended): a freshly constructed filter stores the identity
quaternion `(q0,q1,q2,q3) = (1,0,0,0)`; with zero gyro and zero accel the
feedback block is skipped and the rate is zero, integration adds zero, and
the final step rescales each component by `invSqrt` of the sum of squares —
so the state is unchanged precisely when that factor is 1 (as with an exact
inverse square root on a unit-norm state); non-unit states get normalised,
hence changed. -/
theorem c4_identity_and_zero_input {K : Type} [Field K] [DecidableEq K] :
    (madgwickInit K).q0 = 1 ∧ (madgwickInit K).q1 = 0 ∧
    (madgwickInit K).q2 = 0 ∧ (madgwickInit K).q3 = 0 ∧
    ∀ (invSqrt : K → K) (m : madgwick K),
      qDotAfterFeedback invSqrt m ⟨0, 0, 0⟩ ⟨0, 0, 0⟩ = ⟨0, 0, 0, 0⟩ ∧
      integrated invSqrt m ⟨0, 0, 0⟩ ⟨0, 0, 0⟩ = m ∧
      (invSqrt (sumSq m) = 1 →
        (MadgwickAHRSupdateIMU invSqrt m ⟨0, 0, 0⟩ ⟨0, 0, 0⟩).1 = m) := by
  refine ⟨rfl, rfl, rfl, rfl, fun invSqrt m =>
    ⟨qDotZeroInput invSqrt m, integratedZeroInput invSqrt m, fun hf => ?_⟩⟩
  rw [updateZeroInputEq, hf]
  simp

/-- C4 witness: the amended theorem applied at the fresh filter with the
stand-in inverse-sqrt `fun _ => 1` (exact at the unit sum of squares). -/
theorem c4_identity_and_zero_input_witness :
    ((fun _ => (1 : ℚ)) (sumSq (madgwickInit ℚ)) = 1) ∧
    (MadgwickAHRSupdateIMU (fun _ => (1 : ℚ)) (madgwickInit ℚ) ⟨0, 0, 0⟩ ⟨0, 0, 0⟩).1 =
      madgwickInit ℚ :=
  ⟨rfl, (c4_identity_and_zero_input.2.2.2.2 (fun _ => (1 : ℚ)) (madgwickInit ℚ)).2.2 rfl⟩

/-- C10: from the identity state, zero gyro together with the nonzero
accelerometer reading `(1,0,0)` (not aligned with the predicted gravity)
changes the stored `q2` component from 0 to a nonzero value, for every
inverse-sqrt routine that never returns 0 — the beta-scaled gradient
correction is applied regardless of the gyro value. -/
theorem c10_accel_feedback_moves (invSqrt : ℚ → ℚ) (hf : ∀ x, invSqrt x ≠ 0) :
    (madgwickInit ℚ).q2 = 0 ∧
    (MadgwickAHRSupdateIMU invSqrt (madgwickInit ℚ) ⟨0, 0, 0⟩ ⟨1, 0, 0⟩).1.q2 ≠ 0 := by
  refine ⟨rfl, ?_⟩
  have hd3 : (qDotAfterFeedback invSqrt (madgwickInit ℚ) ⟨0, 0, 0⟩ ⟨1, 0, 0⟩).d3 =
      -(1 / 10 * (2 * invSqrt 1 * invSqrt (2 * invSqrt 1 * (2 * invSqrt 1)))) := by
    unfold qDotAfterFeedback
    rw [if_neg (by norm_num)]
    unfold feedbackQDot
    norm_num [normAccel, gyroQDot, s0, s1, s2, s3, madgwickInit]
  have hq2 : (integrated invSqrt (madgwickInit ℚ) ⟨0, 0, 0⟩ ⟨1, 0, 0⟩).q2 =
      (qDotAfterFeedback invSqrt (madgwickInit ℚ) ⟨0, 0, 0⟩ ⟨1, 0, 0⟩).d3 * (200 / 3) := by
    have hstep : (integrated invSqrt (madgwickInit ℚ) ⟨0, 0, 0⟩ ⟨1, 0, 0⟩).q2 =
        (0 : ℚ) + (qDotAfterFeedback invSqrt (madgwickInit ℚ) ⟨0, 0, 0⟩ ⟨1, 0, 0⟩).d3 *
          (1 / (3 / 200)) := rfl
    rw [hstep]
    norm_num
  have hfin : (MadgwickAHRSupdateIMU invSqrt (madgwickInit ℚ) ⟨0, 0, 0⟩ ⟨1, 0, 0⟩).1.q2 =
      (integrated invSqrt (madgwickInit ℚ) ⟨0, 0, 0⟩ ⟨1, 0, 0⟩).q2 *
        invSqrt (sumSq (integrated invSqrt (madgwickInit ℚ) ⟨0, 0, 0⟩ ⟨1, 0, 0⟩)) := rfl
  rw [hfin, hq2, hd3]
  refine mul_ne_zero (mul_ne_zero (neg_ne_zero.mpr (mul_ne_zero (by norm_num)
    (mul_ne_zero (mul_ne_zero (by norm_num) (hf 1)) (hf _)))) (by norm_num)) (hf _)

/-- C10 witness: the theorem applied with the stand-in inverse-sqrt
`fun _ => 1`, which never returns 0. -/
theorem c10_accel_feedback_moves_witness :
    (∀ x : ℚ, (fun _ => (1 : ℚ)) x ≠ 0) ∧
    (MadgwickAHRSupdateIMU (fun _ => (1 : ℚ)) (madgwickInit ℚ) ⟨0, 0, 0⟩ ⟨1, 0, 0⟩).1.q2 ≠ 0 :=
  ⟨fun _ => one_ne_zero,
   (c10_accel_feedback_moves (fun _ => (1 : ℚ)) (fun _ => one_ne_zero)).2⟩

end MadgwickIMU
